import Mathlib

/-!
Verification development for the Baker Street installer
(`tools/installer`, Rust).  The engine's pure decision logic is embedded
shallowly: external effects (process execution, Kubernetes API calls,
wall-clock time, random token generation) are supplied by explicit
environment parameters, and each embedded function mirrors the control
flow of the Rust source it is named after.
-/

/-! ## String helpers mirroring the Rust standard library calls used -/

/-- Check whether the second list starts with the first list. -/
def charsPre : List Char → List Char → Bool
  | [], _ => true
  | _ :: _, [] => false
  | a :: as, b :: bs => a == b && charsPre as bs

/-- Check whether the haystack contains the needle as a contiguous sublist. -/
def charsContains (needle : List Char) : List Char → Bool
  | [] => charsPre needle []
  | c :: t => charsPre needle (c :: t) || charsContains needle t

/-- Embedding of Rust `str::contains` for plain substring patterns. -/
def containsSubstring (hay pat : String) : Bool :=
  charsContains pat.toList hay.toList

/-- Embedding of Rust `str::to_lowercase` (all strings involved are ASCII). -/
def strToLower (s : String) : String :=
  String.mk (s.toList.map Char.toLower)

/-- ASCII whitespace test, as used by Rust `str::trim`. -/
def isWs (c : Char) : Bool :=
  c == ' ' || c == '\t' || c == '\n' || c == '\r'

/-- Embedding of Rust `str::trim` (strip leading and trailing whitespace). -/
def strTrim (s : String) : String :=
  String.mk (((s.toList.dropWhile isWs).reverse.dropWhile isWs).reverse)

/-! ## Image pulling (`src/images.rs`) -/

/-- Constant `MAX_RETRIES` from `images.rs`. -/
def MAX_RETRIES : Nat := 3

/-- Outcome of one `docker pull` invocation, as observed by `pull_one`:
the process may fail to spawn, exit successfully (with an elapsed
duration, modelled in milliseconds), or exit nonzero with captured
stderr text. -/
inductive AttemptOutcome where
  | execError (msg : String)
  | success (elapsedMs : Nat)
  | failure (stderr : String)
deriving Repr, DecidableEq

/-- A pull environment assigns an outcome to each attempt number
(attempts are counted from 1, as in the source). -/
def PullEnv := Nat → AttemptOutcome

/-- Result of running `pull_one`: how many attempts were made, the
backoff sleeps (in seconds) performed between attempts, and the final
result value. -/
structure PullRun where
  attempts : Nat
  backoffs : List Nat
  result : Except String Nat
deriving Repr

/-- Embedding of `is_local_docker_error` from `images.rs`: classify a
stderr text as a non-transient local Docker configuration error. -/
def is_local_docker_error (stderr : String) : Bool :=
  let lower := strToLower stderr
  containsSubstring lower "credential" || containsSubstring lower "not found in PATH"
    || containsSubstring lower "docker daemon is not running"
    || containsSubstring lower "permission denied"
    || containsSubstring lower "cannot connect to the docker daemon"

/-- Loop body of `pull_one` from `images.rs`: `attempt` is the 1-based
attempt counter; `fuel` bounds the remaining loop iterations (the Rust
`for attempt in 1..=MAX_RETRIES` loop runs at most `MAX_RETRIES`
iterations, and the `unreachable!()` after the loop is modelled by the
fuel-exhaustion row). -/
def pullOneGo (env : PullEnv) : Nat → Nat → PullRun
  | _, 0 => ⟨0, [], .error "unreachable"⟩
  | attempt, fuel + 1 =>
    match env attempt with
    | .execError m => ⟨1, [], .error ("failed to run docker: " ++ m)⟩
    | .success d => ⟨1, [], .ok d⟩
    | .failure stderr =>
      if is_local_docker_error stderr then
        ⟨1, [], .error ("docker config error (skipping retries): " ++ strTrim stderr)⟩
      else if attempt < MAX_RETRIES then
        let rest := pullOneGo env (attempt + 1) fuel
        ⟨rest.attempts + 1, 2 ^ attempt :: rest.backoffs, rest.result⟩
      else
        ⟨1, [], .error (strTrim stderr)⟩

/-- Embedding of `pull_one` from `images.rs`. -/
def pull_one (env : PullEnv) : PullRun :=
  pullOneGo env 1 MAX_RETRIES

/-- Progress events of the pull coordinator (`PullEvent` in `images.rs`). -/
inductive PullEventM where
  | started (index : Nat) (image : String)
  | completed (index : Nat) (image : String) (elapsedMs : Nat)
  | failed (index : Nat) (image : String) (error : String) (attempt : Nat)
  | retrying (index : Nat) (image : String) (attempt : Nat)
deriving Repr, DecidableEq

/-- The event trace produced for one artifact by the task that `pull_all`
spawns for it (`images.rs`, lines 75-91): a `Started` event, then the
events emitted by `pull_one` (none — `pull_one` sends no events), then
one terminal `Completed` or `Failed` event; `Failed` always carries
`attempt = MAX_RETRIES` as in the source. -/
def artifactEvents (index : Nat) (image : String) (env : PullEnv) : List PullEventM :=
  let r := pull_one env
  .started index image ::
    (match r.result with
     | .ok d => [.completed index image d]
     | .error e => [.failed index image e MAX_RETRIES])

/-- Count the `Retrying` events in a trace. -/
def countRetrying (evs : List PullEventM) : Nat :=
  evs.countP (fun e => match e with | .retrying _ _ _ => true | _ => false)

/-- A pull environment in which every attempt exits nonzero with a fixed
non-local-configuration stderr text. -/
def envAllBoom : PullEnv := fun _ => .failure " boom "

/-- A pull environment whose first attempt fails transiently and whose
second attempt succeeds, so exactly one retry is performed. -/
def envRetryOnce : PullEnv := fun a =>
  if a == 1 then .failure "tls handshake timeout" else .success 5

/-- A pull environment in which every attempt fails with the missing-binary
stderr signature. -/
def envNotFound : PullEnv := fun _ => .failure "exec: docker: executable file not found in PATH"

/-! ## Deploy sequencing (`src/main.rs`: `run_deploy_sequence`,
`start_deploy_phase`, `handle_async_msg`) -/

/-- Manifest image entry (`ManifestImage` in `manifest.rs`; only the
fields the deploy sequencer consults are carried). -/
structure ManifestImageM where
  component : String
  image : String
  required : Bool
deriving Repr, DecidableEq

/-- Per-item status (`ItemStatus` in `app.rs`). -/
inductive ItemStatusM where
  | pending
  | inProgress
  | done
  | failed (msg : String)
  | skipped
deriving Repr, DecidableEq

/-- Messages the deploy sequencer sends to the control loop
(the `DeployStep` and `DeployDone` rows of `AsyncMsg` in `main.rs`). -/
inductive DeployMsg where
  | step (index : Nat) (result : Except String Unit)
  | done
deriving Repr

/-- The twelve unconditional step labels of `run_deploy_sequence`,
in source order. -/
def baseDeployLabels : List String :=
  ["Namespace", "Secrets", "ConfigMap", "PVCs", "RBAC", "NATS",
   "Qdrant", "Brain", "Worker", "Gateway", "UI", "Network Policies"]

/-- Optional-extension step labels executed by `run_deploy_sequence`
(main.rs lines 824-853): for each non-required manifest image the
component name selects a step, covering voice, sysadmin, ext-toolbox
and ext-browser. -/
def extensionStepLabels (images : List ManifestImageM) (skipExtensions : Bool) : List String :=
  if skipExtensions then []
  else images.filterMap fun img =>
    if img.required then none
    else match img.component with
      | "voice" => some "Voice"
      | "sysadmin" => some "SysAdmin"
      | "ext-toolbox" => some "Toolbox"
      | "ext-browser" => some "Browser"
      | _ => none

/-- Labels of all steps `run_deploy_sequence` executes and reports,
in execution order. -/
def deployStepLabels (images : List ManifestImageM) (skipExtensions : Bool) : List String :=
  baseDeployLabels ++ extensionStepLabels images skipExtensions

/-- Step labels of the status table that `start_deploy_phase` builds
(main.rs lines 680-713): the same twelve base steps, but among the
optional images only voice and sysadmin contribute entries. -/
def deployStatusLabels (images : List ManifestImageM) (skipExtensions : Bool) : List String :=
  baseDeployLabels ++
    (if skipExtensions then []
     else images.filterMap fun img =>
       if img.required then none
       else match img.component with
         | "voice" => some "Voice"
         | "sysadmin" => some "SysAdmin"
         | _ => none)

/-- Embedding of `run_deploy_sequence` (main.rs lines 727-856) as the
list of messages it sends.  `clientErr` is the outcome of
`kube::Client::try_default()` (`some e` = construction failed);
`stepResults i` is the outcome of the cluster operation executed by the
`i`-th step.  On client-construction failure the sequence reports a
single synthetic failure for step 0 and then the completion signal; the
`report_step!` macro otherwise sends one message per executed step with
a running index, and a failing step never stops the following steps. -/
def run_deploy_sequence (clientErr : Option String)
    (stepResults : Nat → Except String Unit)
    (images : List ManifestImageM) (skipExtensions : Bool) : List DeployMsg :=
  match clientErr with
  | some e => [.step 0 (.error e), .done]
  | none =>
    ((List.range (deployStepLabels images skipExtensions).length).map
      fun i => DeployMsg.step i (stepResults i)) ++ [.done]

/-- Replace the status component of the `i`-th entry of a status table,
leaving the table unchanged when `i` is out of range (the semantics of
`get_mut` + assignment in `handle_async_msg`). -/
def setStatusAt : List (String × ItemStatusM) → Nat → ItemStatusM → List (String × ItemStatusM)
  | [], _, _ => []
  | x :: t, 0, s => (x.1, s) :: t
  | x :: t, i + 1, s => x :: setStatusAt t i s

/-- Embedding of the `DeployStep`/`DeployDone` rows of `handle_async_msg`
(main.rs lines 457-478) acting on the deploy status table and the done
counter: the counter is incremented only when `get_mut(index)` finds an
entry, i.e. when `index` is within the table. -/
def handleDeployMsg (st : List (String × ItemStatusM) × Nat) (msg : DeployMsg) :
    List (String × ItemStatusM) × Nat :=
  match msg with
  | .step index result =>
    if index < st.1.length then
      match result with
      | .ok _ => (setStatusAt st.1 index .done, st.2 + 1)
      | .error e => (setStatusAt st.1 index (.failed e), st.2 + 1)
    else st
  | .done => st

/-- The deploy status table as initialised by `start_deploy_phase`. -/
def initialDeployTable (images : List ManifestImageM) (skipExtensions : Bool) :
    List (String × ItemStatusM) :=
  (deployStatusLabels images skipExtensions).map fun label => (label, .pending)

/-- Fold a list of deploy messages through the control loop handler. -/
def runDeployMsgs (images : List ManifestImageM) (skipExtensions : Bool)
    (msgs : List DeployMsg) : List (String × ItemStatusM) × Nat :=
  msgs.foldl handleDeployMsg (initialDeployTable images skipExtensions, 0)

/-- Count the step (non-`done`) messages in a deploy message list. -/
def countStepMsgs (msgs : List DeployMsg) : Nat :=
  msgs.countP (fun m => match m with | .step _ _ => true | .done => false)

/-- The image list of `default_manifest()` in `manifest.rs`, which the
installer uses whenever the release manifest cannot be fetched. -/
def defaultManifestImages : List ManifestImageM :=
  [⟨"brain", "bakerst-brain:latest", true⟩,
   ⟨"worker", "bakerst-worker:latest", true⟩,
   ⟨"ui", "bakerst-ui:latest", true⟩,
   ⟨"gateway", "bakerst-gateway:latest", true⟩,
   ⟨"sysadmin", "bakerst-sysadmin:latest", false⟩,
   ⟨"voice", "bakerst-voice:latest", false⟩,
   ⟨"ext-toolbox", "bakerst-ext-toolbox:latest", false⟩,
   ⟨"ext-browser", "bakerst-ext-browser:latest", false⟩]

/-! ## Install configuration (`src/app.rs`) and secret distribution
(`create_all_secrets` in `src/main.rs`) -/

/-- Feature selection (`FeatureSelection` in `app.rs`): id, display
name, enabled flag, and the ordered (secret-key, optional captured
value) pairs. -/
structure FeatureSel where
  id : String
  name : String
  enabled : Bool
  secrets : List (String × Option String)
deriving Repr, DecidableEq

/-- Install configuration (`InstallConfig` in `app.rs`).  The `namespace`
field is rendered `nspace` because the source name is a Lean keyword. -/
structure InstallConfigM where
  oauth_token : Option String
  api_key : Option String
  voyage_api_key : Option String
  agent_name : String
  auth_token : String
  features : List FeatureSel
  nspace : String
deriving Repr, DecidableEq

/-- Secret payload: the contents of one Kubernetes `Secret`, modelled —
like Rust's `BTreeMap` — as a key-to-value map with replace-on-insert
semantics (represented as an association list with unique keys). -/
def SMap := List (String × String)

/-- Map insert with `BTreeMap::insert` semantics: replace the value when
the key is present, otherwise append the pair. -/
def smapInsert (m : SMap) (k v : String) : SMap :=
  match m with
  | [] => [(k, v)]
  | (k0, v0) :: t => if k0 == k then (k0, v) :: t else (k0, v0) :: smapInsert t k v

/-- Lookup in a secret payload. -/
def smapLookup (m : SMap) (k : String) : Option String :=
  match m with
  | [] => none
  | (k0, v0) :: t => if k0 == k then some v0 else smapLookup t k

/-- Optional insert: `if let Some(x) = opt { m.insert(k, x) }`. -/
def smapInsertOpt (m : SMap) (k : String) (v : Option String) : SMap :=
  match v with
  | some x => smapInsert m k x
  | none => m

/-- The brain secret payload built by `create_all_secrets`
(main.rs lines 864-876). -/
def brainData (config : InstallConfigM) : SMap :=
  let m := smapInsertOpt [] "ANTHROPIC_OAUTH_TOKEN" config.oauth_token
  let m := smapInsertOpt m "ANTHROPIC_API_KEY" config.api_key
  let m := smapInsertOpt m "VOYAGE_API_KEY" config.voyage_api_key
  let m := smapInsert m "AUTH_TOKEN" config.auth_token
  smapInsert m "AGENT_NAME" config.agent_name

/-- The worker secret payload built by `create_all_secrets`
(main.rs lines 879-887). -/
def workerData (config : InstallConfigM) : SMap :=
  let m := smapInsertOpt [] "ANTHROPIC_OAUTH_TOKEN" config.oauth_token
  let m := smapInsertOpt m "ANTHROPIC_API_KEY" config.api_key
  smapInsert m "AGENT_NAME" config.agent_name

/-- The first match arm of the per-key routing in `create_all_secrets`
(main.rs line 901): the messaging-platform credential keys. -/
def isMessagingKey (k : String) : Bool :=
  k == "TELEGRAM_BOT_TOKEN" || k == "DISCORD_BOT_TOKEN" || k == "DISCORD_APP_ID"

/-- Inner loop of the gateway section of `create_all_secrets`
(main.rs lines 898-920), over one enabled feature's secret pairs:
messaging keys accumulate into the gateway payload, `GITHUB_TOKEN` and
`PERPLEXITY_API_KEY` each trigger an immediate `create_secret` call
with a dedicated single-key payload, other keys are dropped.  Returns
the updated gateway payload and the calls emitted, in order. -/
def featureSecretsLoop (gw : SMap) :
    List (String × Option String) → SMap × List (String × SMap)
  | [] => (gw, [])
  | (_, none) :: t => featureSecretsLoop gw t
  | (k, some v) :: t =>
    if isMessagingKey k then
      featureSecretsLoop (smapInsert gw k v) t
    else if k == "GITHUB_TOKEN" then
      let (gw1, calls) := featureSecretsLoop gw t
      (gw1, ("bakerst-github-secrets", [("GITHUB_TOKEN", v)]) :: calls)
    else if k == "PERPLEXITY_API_KEY" then
      let (gw1, calls) := featureSecretsLoop gw t
      (gw1, ("bakerst-perplexity-secrets", [("PERPLEXITY_API_KEY", v)]) :: calls)
    else
      featureSecretsLoop gw t

/-- Outer loop of the gateway section of `create_all_secrets`
(main.rs lines 894-921): disabled features are skipped entirely. -/
def gatewayLoop (gw : SMap) : List FeatureSel → SMap × List (String × SMap)
  | [] => (gw, [])
  | f :: fs =>
    if f.enabled then
      let (gw1, calls1) := featureSecretsLoop gw f.secrets
      let (gw2, calls2) := gatewayLoop gw1 fs
      (gw2, calls1 ++ calls2)
    else gatewayLoop gw fs

/-- Embedding of `create_all_secrets` (main.rs lines 858-925) as the
ordered list of `create_secret` calls it issues: brain, worker, the
dedicated per-provider secrets created while walking enabled features,
and finally the gateway secret. -/
def create_all_secrets (config : InstallConfigM) : List (String × SMap) :=
  let (gw, extraCalls) := gatewayLoop [("AUTH_TOKEN", config.auth_token)] config.features
  ("bakerst-brain-secrets", brainData config) ::
    ("bakerst-worker-secrets", workerData config) ::
      extraCalls ++ [("bakerst-gateway-secrets", gw)]

/-- Captured secret pairs of the enabled features, in traversal order:
the (key, value) pairs whose value was actually collected. -/
def capturedPairs (features : List FeatureSel) : List (String × String) :=
  features.foldr
    (fun f acc =>
      if f.enabled then
        (f.secrets.filterMap fun p => p.2.map fun v => (p.1, v)) ++ acc
      else acc) []

/-- The captured pairs of a single prompt list: the (key, value) pairs
whose value is present. -/
def capturedOf (pairs : List (String × Option String)) : List (String × String) :=
  pairs.filterMap fun p => p.2.map fun v => (p.1, v)

/-- Specification-side gateway routing: the gateway payload starts from
the shared auth token and accumulates exactly the captured
messaging-platform credentials. -/
def gatewayRoute (auth : String) (captured : List (String × String)) : SMap :=
  (captured.filter fun q => isMessagingKey q.1).foldl
    (fun m q => smapInsert m q.1 q.2) [("AUTH_TOKEN", auth)]

/-- Specification-side provider routing: each captured `GITHUB_TOKEN` or
`PERPLEXITY_API_KEY` value yields its own dedicated single-key secret. -/
def providerCalls (captured : List (String × String)) : List (String × SMap) :=
  captured.filterMap fun q =>
    if q.1 == "GITHUB_TOKEN" then
      some ("bakerst-github-secrets", [("GITHUB_TOKEN", q.2)])
    else if q.1 == "PERPLEXITY_API_KEY" then
      some ("bakerst-perplexity-secrets", [("PERPLEXITY_API_KEY", q.2)])
    else none

/-! ## Health monitoring (`src/health.rs`: `poll_health`) -/

/-- Constant `MAX_RECOVERY_ATTEMPTS` from `health.rs`. -/
def MAX_RECOVERY_ATTEMPTS : Nat := 3

/-- Waiting state of a container (`ContainerStateWaiting`). -/
structure WaitingM where
  reason : Option String
deriving Repr, DecidableEq

/-- Container state (`ContainerState`): only the waiting branch is
consulted by `poll_health`. -/
structure ContainerStateM where
  waiting : Option WaitingM
deriving Repr, DecidableEq

/-- Container status as read by `poll_health`: readiness flag, restart
count, image reference and optional state. -/
structure ContainerStatusM where
  ready : Bool
  restartCount : Int
  image : String
  state : Option ContainerStateM
deriving Repr, DecidableEq

/-- Pod status block (`PodStatus`): optional phase text and optional
container status list. -/
structure PodStatusM where
  phase : Option String
  containerStatuses : Option (List ContainerStatusM)
deriving Repr, DecidableEq

/-- A pod as observed through the Kubernetes list call: optional
metadata name and optional status. -/
structure PodObs where
  metadataName : Option String
  status : Option PodStatusM
deriving Repr, DecidableEq

/-- Per-pod health record (`PodHealth` in `health.rs`). -/
structure PodHealthM where
  name : String
  deployment : String
  ready : Bool
  phase : String
  image : String
  restarts : Int
  error : Option String
  logs_tail : Option String
deriving Repr, DecidableEq

/-- Health events (`HealthEvent` in `health.rs`). -/
inductive HealthEventM where
  | podUpdate (p : PodHealthM)
  | recoveryAttempt (deployment : String) (attempt : Nat)
  | allHealthy
  | failed (unhealthy : List PodHealthM)
deriving Repr, DecidableEq

/-- Environment of one `poll_health` run.  `pods c d` is the outcome of
the pod list call for deployment `d` on cycle `c` (the call can fail,
which the source propagates with `?`); `logsTail c name` is the text
obtained for pod `name` on cycle `c` after `unwrap_or_default()` (a
failed log fetch already collapsed to the empty string); `elapsedSec c`
is the value of `start.elapsed()` in whole seconds when cycle `c`
reaches the timeout check. -/
structure HealthEnv where
  pods : Nat → String → Except String (List PodObs)
  logsTail : Nat → String → String
  elapsedSec : Nat → Nat

/-- The container status list of a pod:
`status.and_then(container_statuses).unwrap_or_default()`. -/
def csOf (pod : PodObs) : List ContainerStatusM :=
  (pod.status.bind (·.containerStatuses)).getD []

/-- The crash-loop test of `poll_health` (health.rs lines 104-110). -/
def isCrashLoop (pod : PodObs) : Bool :=
  (csOf pod).any fun cs =>
    match cs.state with
    | none => false
    | some s =>
      match s.waiting with
      | none => false
      | some w => w.reason == some "CrashLoopBackOff"

/-- The `PodHealth` record computed for one pod on one cycle
(health.rs lines 86-144): readiness is the conjunction over the
reported container statuses, restarts their sum, the image comes from
the first container status, and the error field is set exactly when the
crash-loop signature is present.  `logs_tail` is `None` here; it is
filled in only for the timeout event. -/
def podHealthOf (deployment : String) (pod : PodObs) : PodHealthM :=
  { name := pod.metadataName.getD ""
    deployment := deployment
    ready := (csOf pod).all (·.ready)
    phase := (pod.status.bind (·.phase)).getD "Unknown"
    image := ((csOf pod).head?.map (·.image)).getD ""
    restarts := ((csOf pod).map (·.restartCount)).sum
    error := if isCrashLoop pod then some "CrashLoopBackOff" else none
    logs_tail := none }

/-- Recovery-attempt counters, keyed by deployment name
(the `recovery_attempts` HashMap in `poll_health`). -/
def RecMap := List (String × Nat)

/-- Counter value for a deployment (`entry(...).or_insert(0)` reads 0
when the key is absent). -/
def recLookup (m : RecMap) (k : String) : Nat :=
  match m with
  | [] => 0
  | (k0, v) :: t => if k0 == k then v else recLookup t k

/-- Store a counter value (replace or append). -/
def recInsert (m : RecMap) (k : String) (v : Nat) : RecMap :=
  match m with
  | [] => [(k, v)]
  | (k0, v0) :: t => if k0 == k then (k0, v) :: t else (k0, v0) :: recInsert t k v

/-- The recovery block run for one pod (health.rs lines 112-133): when
the pod is crash-looping, the per-deployment counter is read
(defaulting to 0); if it is below `MAX_RECOVERY_ATTEMPTS` it is
incremented and a `RecoveryAttempt` event is emitted (the log fetch and
pod deletion are external effects with no bearing on the loop state).
Returns the updated counters and the optional event. -/
def recoverPod (deployment : String) (rec : RecMap) (pod : PodObs) :
    RecMap × Option HealthEventM :=
  if isCrashLoop pod then
    let attempts := recLookup rec deployment
    if attempts < MAX_RECOVERY_ATTEMPTS then
      (recInsert rec deployment (attempts + 1),
       some (.recoveryAttempt deployment (attempts + 1)))
    else
      (recInsert rec deployment attempts, none)
  else (rec, none)

/-- Process the pods of one deployment on one cycle (the inner `for pod`
loop, health.rs lines 85-152): returns the updated counters, the events
emitted in order (per pod: optional `RecoveryAttempt`, then
`PodUpdate`), the all-ready flag and the unhealthy records pushed. -/
def cyclePods (deployment : String) :
    RecMap → List PodObs → RecMap × List HealthEventM × Bool × List PodHealthM
  | rec, [] => (rec, [], true, [])
  | rec, pod :: pods =>
    let (rec1, recEv) := recoverPod deployment rec pod
    let h := podHealthOf deployment pod
    let (rec2, evs, allH, unh) := cyclePods deployment rec1 pods
    (rec2,
     recEv.toList ++ [.podUpdate h] ++ evs,
     h.ready && allH,
     (if h.ready then [] else [h]) ++ unh)

/-- Process all monitored deployments on one cycle (the outer
`for deploy_name` loop): a failing list call aborts the cycle, keeping
the events already emitted (the source returns the error through `?`
after having sent those events). -/
def cycleDeps (env : HealthEnv) (c : Nat) :
    RecMap → List String → Except (List HealthEventM × String)
      (RecMap × List HealthEventM × Bool × List PodHealthM)
  | rec, [] => .ok (rec, [], true, [])
  | rec, d :: ds =>
    match env.pods c d with
    | .error e => .error ([], e)
    | .ok pods =>
      let (rec1, evs, allH, unh) := cyclePods d rec pods
      match cycleDeps env c rec1 ds with
      | .error (evs2, e) => .error (evs ++ evs2, e)
      | .ok (rec2, evs2, allH2, unh2) => .ok (rec2, evs ++ evs2, allH && allH2, unh ++ unh2)

/-- Terminal disposition of a `poll_health` run. -/
inductive HealthOutcome where
  | allHealthy
  | failed (unhealthy : List PodHealthM)
  | apiError (e : String)
  | fuelOut
deriving Repr, DecidableEq

/-- The polling loop of `poll_health` (health.rs lines 77-174).  Each
iteration processes every deployment, then checks all-healthy (which
requires a nonempty deployment list), then the 120-second ceiling; on
timeout every unhealthy record of the final cycle gets a log tail
attached before the `Failed` event is sent.  `fuel` bounds the number
of iterations; a failing list call surfaces as `apiError` with no
terminal event, exactly as the source propagates the error. -/
def pollHealthGo (env : HealthEnv) (names : List String) :
    Nat → Nat → RecMap → List HealthEventM × HealthOutcome
  | _, 0, _ => ([], .fuelOut)
  | c, fuel + 1, rec =>
    match cycleDeps env c rec names with
    | .error (evs, e) => (evs, .apiError e)
    | .ok (rec1, evs, allH, unh) =>
      if allH && !names.isEmpty then
        (evs ++ [.allHealthy], .allHealthy)
      else if env.elapsedSec c > 120 then
        let unh1 := unh.map fun p => { p with logs_tail := some (env.logsTail c p.name) }
        (evs ++ [.failed unh1], .failed unh1)
      else
        let (evs2, out) := pollHealthGo env names (c + 1) fuel rec1
        (evs ++ evs2, out)

/-- Embedding of `poll_health`: the loop starts at cycle 0 with empty
recovery counters. -/
def poll_health (env : HealthEnv) (names : List String) (fuel : Nat) :
    List HealthEventM × HealthOutcome :=
  pollHealthGo env names 0 fuel []

/-- Count the terminal events (`AllHealthy` or `Failed`) in a trace. -/
def countTerminal (evs : List HealthEventM) : Nat :=
  evs.countP fun e =>
    match e with
    | .allHealthy => true
    | .failed _ => true
    | _ => false

/-- Count the `RecoveryAttempt` events for one deployment in a trace. -/
def countRecoveryFor (d : String) (evs : List HealthEventM) : Nat :=
  evs.countP fun e =>
    match e with
    | .recoveryAttempt d0 _ => d0 == d
    | _ => false

/-! ## Phase state machine and control loop (`src/app.rs`, key handling
and auto-advance in `src/main.rs`) -/

/-- Installer phases (`Phase` in `app.rs`). -/
inductive PhaseM where
  | preflight
  | secrets
  | features
  | confirm
  | pull
  | deploy
  | health
  | complete
deriving Repr, DecidableEq

/-- Embedding of `Phase::next`. -/
def PhaseM.next : PhaseM → Option PhaseM
  | .preflight => some .secrets
  | .secrets => some .features
  | .features => some .confirm
  | .confirm => some .pull
  | .pull => some .deploy
  | .deploy => some .health
  | .health => some .complete
  | .complete => none

/-- Position of a phase in the linear order (`Phase::index`). -/
def PhaseM.idx : PhaseM → Nat
  | .preflight => 0
  | .secrets => 1
  | .features => 2
  | .confirm => 3
  | .pull => 4
  | .deploy => 5
  | .health => 6
  | .complete => 7

/-- Secret prompt (`SecretPrompt` as used in `main.rs`, including the
feature-contributed tag). -/
structure SecretPromptM where
  key : String
  description : String
  required : Bool
  is_secret : Bool
  is_feature : Bool
  value : Option String
deriving Repr, DecidableEq

/-- The slice of `App` state (`app.rs`) that the keyboard-driven install
flow reads or writes.  The per-phase coordinator collections are not
carried: the coordinators communicate by messages and never touch the
configuration. -/
structure AppM where
  phase : PhaseM
  config : InstallConfigM
  should_quit : Bool
  secret_prompts : List SecretPromptM
  current_secret_index : Nat
  secret_input : String
  feature_cursor : Nat
  collecting_feature_secrets : Bool
  confirm_selected : Nat
deriving Repr, DecidableEq

/-- Embedding of `App::advance`. -/
def AppM.advance (app : AppM) : AppM :=
  match app.phase.next with
  | some next => { app with phase := next }
  | none => app

/-- Embedding of `App::back_to_secrets`: a no-op unless the phase is
exactly `Confirm`; on success it resets the secret cursor and clears
the input buffer. -/
def AppM.back_to_secrets (app : AppM) : AppM :=
  if app.phase = .confirm then
    { app with phase := .secrets, current_secret_index := 0, secret_input := "" }
  else app

/-- The key codes the install flow distinguishes. -/
inductive KeyCodeM where
  | char (c : Char)
  | enter
  | backspace
  | esc
  | up
  | down
  | left
  | right
deriving Repr, DecidableEq

/-- Embedding of `submit_current_secret` (main.rs lines 319-362). -/
def submit_current_secret (app : AppM) : AppM :=
  let idx := app.current_secret_index
  match app.secret_prompts[idx]? with
  | none => app
  | some prompt =>
    let input := app.secret_input
    if prompt.required && input.isEmpty then app
    else
      let value := if input.isEmpty then none else some input
      let prompts := app.secret_prompts.set idx { prompt with value := value }
      let config :=
        if prompt.key == "ANTHROPIC_OAUTH_TOKEN" then
          { app.config with oauth_token := value }
        else if prompt.key == "ANTHROPIC_API_KEY" then
          { app.config with api_key := value }
        else if prompt.key == "VOYAGE_API_KEY" then
          { app.config with voyage_api_key := value }
        else if prompt.key == "AGENT_NAME" then
          match value with
          | some v => if v.isEmpty then app.config else { app.config with agent_name := v }
          | none => app.config
        else
          { app.config with features :=
              updateFirstFeature app.config.features prompt.key value }
      { app with
          secret_prompts := prompts
          config := config
          current_secret_index := idx + 1
          secret_input := "" }
where
  /-- Store the value into the first feature owning the key
  (the `for feature in &mut app.config.features` search with `break`). -/
  updateFirstFeature : List FeatureSel → String → Option String → List FeatureSel
    | [], _, _ => []
    | f :: fs, key, value =>
      if (f.secrets.find? fun p => p.1 == key).isSome then
        { f with secrets := setFirstPair f.secrets key value } :: fs
      else f :: updateFirstFeature fs key value
  /-- Replace the value of the first pair with the given key. -/
  setFirstPair : List (String × Option String) → String → Option String →
      List (String × Option String)
    | [], _, _ => []
    | (k, v) :: t, key, value =>
      if k == key then (k, value) :: t else (k, v) :: setFirstPair t key value

/-- Embedding of `handle_secrets_key` (main.rs lines 291-317). -/
def handle_secrets_key (app : AppM) (key : KeyCodeM) : AppM :=
  if app.current_secret_index ≥ app.secret_prompts.length then app
  else
    match key with
    | .char c => { app with secret_input := app.secret_input.push c }
    | .backspace =>
      { app with secret_input := String.mk app.secret_input.toList.dropLast }
    | .enter => submit_current_secret app
    | .esc =>
      match app.secret_prompts[app.current_secret_index]? with
      | some prompt =>
        if !prompt.required then
          { app with
              secret_prompts :=
                app.secret_prompts.set app.current_secret_index { prompt with value := none }
              current_secret_index := app.current_secret_index + 1
              secret_input := "" }
        else app
      | none => app
    | _ => app

/-- The feature-contributed prompts built on the Features-phase Enter
keypress (main.rs lines 392-406), one per secret key of each enabled
feature. -/
def buildFeaturePrompts (features : List FeatureSel) : List SecretPromptM :=
  features.foldr
    (fun f acc =>
      if f.enabled then
        (f.secrets.map fun p =>
          { key := p.1
            description := f.name ++ " — " ++ p.1
            required := false
            is_secret := containsSubstring p.1 "TOKEN" || containsSubstring p.1 "KEY"
            is_feature := true
            value := none }) ++ acc
      else acc) []

/-- Embedding of `handle_features_key` (main.rs lines 364-423).
`freshToken` is the value produced by `generate_auth_token()` for this
keypress; the second component reports whether the auth token was
(re)generated, i.e. whether the Enter branch ran. -/
def handle_features_key (app : AppM) (key : KeyCodeM) (freshToken : String) :
    AppM × Bool :=
  match key with
  | .up =>
    (if app.feature_cursor > 0 then { app with feature_cursor := app.feature_cursor - 1 }
     else app, false)
  | .down =>
    (if !app.config.features.isEmpty &&
        app.feature_cursor < app.config.features.length - 1 then
      { app with feature_cursor := app.feature_cursor + 1 }
     else app, false)
  | .char c =>
    if c == ' ' then
      (match app.config.features[app.feature_cursor]? with
       | some f =>
         let fs := app.config.features.set app.feature_cursor { f with enabled := !f.enabled }
         { app with config := { app.config with features := fs } }
       | none => app, false)
    else if c == 'q' then ({ app with should_quit := true }, false)
    else (app, false)
  | .enter =>
    let app := { app with config := { app.config with auth_token := freshToken } }
    let basePrompts := app.secret_prompts.filter fun p => !p.is_feature
    let baseCount := basePrompts.length
    let featurePrompts := buildFeaturePrompts app.config.features
    if featurePrompts.isEmpty then
      ({ app with secret_prompts := basePrompts }.advance, true)
    else
      ({ app with
           secret_prompts := basePrompts ++ featurePrompts
           current_secret_index := baseCount
           collecting_feature_secrets := true
           phase := .secrets }, true)
  | _ => (app, false)

/-- Embedding of `handle_confirm_key` (main.rs lines 425-447). -/
def handle_confirm_key (app : AppM) (key : KeyCodeM) : AppM :=
  match key with
  | .left => { app with confirm_selected := 0 }
  | .right => { app with confirm_selected := 1 }
  | .enter =>
    if app.confirm_selected == 0 then app.advance else app.back_to_secrets
  | .char c => if c == 'q' then { app with should_quit := true } else app
  | _ => app

/-- Inputs of one control-loop iteration: an optional keypress, or the
coordinator completion that makes the loop call `advance()` for the
Pull, Deploy, or Health phase (all pulls done, `DeployDone`, or the
all-healthy terminal event — none of which touches the configuration in
the source). -/
inductive LoopInput where
  | key (k : KeyCodeM)
  | coordinatorDone
  | tick
deriving Repr, DecidableEq

/-- Dispatch of `handle_key` (main.rs lines 238-289) by phase; outside
the three interactive phases only quitting is possible.  Returns the new
state and whether the auth token was written. -/
def handle_key (app : AppM) (key : KeyCodeM) (freshToken : String) : AppM × Bool :=
  match app.phase with
  | .secrets => (handle_secrets_key app key, false)
  | .features => handle_features_key app key freshToken
  | .confirm => (handle_confirm_key app key, false)
  | _ =>
    (match key with
     | .char c => if c == 'q' then { app with should_quit := true } else app
     | _ => app, false)

/-- The Secrets row of `handle_auto_advance` (main.rs lines 569-580):
once every prompt is answered, finishing a feature-secret detour jumps
straight to Confirm, otherwise the machine advances normally. -/
def autoAdvanceSecrets (app : AppM) : AppM :=
  if app.phase = .secrets ∧ app.current_secret_index ≥ app.secret_prompts.length then
    if app.collecting_feature_secrets then
      { app with collecting_feature_secrets := false, phase := .confirm }
    else app.advance
  else app

/-- One control-loop iteration on the modelled state: handle the input,
then run the Secrets auto-advance check (the Pull/Deploy/Health
auto-advance rows start coordinators and advance on completion, which
`LoopInput.coordinatorDone` models; none of them reads or writes the
configuration). -/
def loopStep (app : AppM) (inp : LoopInput) (freshToken : String) : AppM × Bool :=
  let (app1, wrote) :=
    match inp with
    | .key k => handle_key app k freshToken
    | .coordinatorDone =>
      (if app.phase = .pull ∨ app.phase = .deploy ∨ app.phase = .health then app.advance
       else app, false)
    | .tick => (app, false)
  (autoAdvanceSecrets app1, wrote)

/-- Run the control loop over a list of inputs paired with the token
`generate_auth_token()` would produce at that iteration; returns the
final state and the number of auth-token writes performed. -/
def runLoop (app : AppM) : List (LoopInput × String) → AppM × Nat
  | [] => (app, 0)
  | (inp, tok) :: rest =>
    let (app1, wrote) := loopStep app inp tok
    let (app2, n) := runLoop app1 rest
    (app2, (if wrote then 1 else 0) + n)

/-- The state in which the interactive flow starts taking keys when the
manifest contributes no required-secret prompts and no optional
features: `App::new` followed by the preflight auto-advance to the
Secrets phase. -/
def app0 : AppM :=
  { phase := .secrets
    config :=
      { oauth_token := none
        api_key := none
        voyage_api_key := none
        agent_name := "Baker"
        auth_token := ""
        features := []
        nspace := "bakerst" }
    should_quit := false
    secret_prompts := []
    current_secret_index := 0
    secret_input := ""
    feature_cursor := 0
    collecting_feature_secrets := false
    confirm_selected := 0 }

/-- An input run that reaches Confirm, cancels back to Secrets, and
returns to Confirm: tick (Secrets auto-advances to Features), Enter in
Features, Right and Enter in Confirm (cancel), tick (auto-advance back
through Features), Enter in Features again. -/
def cancelRetryInputs : List (LoopInput × String) :=
  [(.tick, "ta"), (.key .enter, "T1"), (.key .right, "tb"),
   (.key .enter, "tc"), (.tick, "td"), (.key .enter, "T2")]

/-- Whether every pod list call of cycle `c` succeeds. -/
def listOkCycle (env : HealthEnv) (names : List String) (c : Nat) : Bool :=
  names.all fun d =>
    match env.pods c d with
    | .ok _ => true
    | .error _ => false

/-- Whether cycle `c` observes every pod of every monitored deployment as
ready (false when a list call fails). -/
def allReadyCycle (env : HealthEnv) (names : List String) (c : Nat) : Bool :=
  names.all fun d =>
    match env.pods c d with
    | .ok pods => pods.all fun p => (podHealthOf d p).ready
    | .error _ => false

/-- The unhealthy pod records of cycle `c`, in deployment-then-pod order,
before log tails are attached. -/
def cycleUnhealthyPure (env : HealthEnv) (names : List String) (c : Nat) : List PodHealthM :=
  names.foldr
    (fun d acc =>
      (match env.pods c d with
       | .ok pods =>
         pods.filterMap fun p =>
           if (podHealthOf d p).ready then none else some (podHealthOf d p)
       | .error _ => []) ++ acc) []

/-- A pod whose single container is crash-looping. -/
def crashPod : PodObs :=
  ⟨some "p1", some ⟨some "Running",
    some [⟨false, 4, "img", some ⟨some ⟨some "CrashLoopBackOff"⟩⟩⟩]⟩⟩

/-- A pod whose status reports no container statuses at all. -/
def emptyPod : PodObs := ⟨some "p0", some ⟨some "Pending", none⟩⟩

/-- A health environment whose very first pod list call fails. -/
def envListErr : HealthEnv :=
  ⟨fun _ _ => .error "connection refused", fun _ _ => "", fun _ => 0⟩

/-- A health environment with a single crash-looping pod and the timeout
ceiling already exceeded on the first cycle. -/
def envCrashFast : HealthEnv :=
  ⟨fun _ _ => .ok [crashPod], fun _ _ => "LOGS", fun _ => 200⟩

/-- A health environment whose single pod reports no container statuses. -/
def envEmptyCs : HealthEnv :=
  ⟨fun _ _ => .ok [emptyPod], fun _ _ => "", fun _ => 0⟩

/-! ## Theorems: pull coordinator (claims about `images.rs`) -/

/-- Helper: unfolded run of `pull_one` when all three attempts exit
nonzero with non-local-configuration stderr texts. -/
theorem pull_one_all_fail (env : PullEnv) (s1 s2 s3 : String)
    (h1 : env 1 = .failure s1) (h2 : env 2 = .failure s2) (h3 : env 3 = .failure s3)
    (l1 : is_local_docker_error s1 = false) (l2 : is_local_docker_error s2 = false)
    (l3 : is_local_docker_error s3 = false) :
    pull_one env = ⟨3, [2, 4], .error (strTrim s3)⟩ := by
  simp [pull_one, pullOneGo, MAX_RETRIES, h1, h2, h3, l1, l2, l3]

/-- C2 counterexample: with every attempt failing with the
non-local-configuration stderr text " boom ", the claimed backoff
sequence 2, 4, 8 does not occur — only two backoffs (2 and 4 seconds)
separate the three attempts. -/
theorem pull_one_backoff_counterexample :
    (∀ a, 1 ≤ a → a ≤ 3 → ∃ s, envAllBoom a = .failure s ∧ is_local_docker_error s = false)
      ∧ (pull_one envAllBoom).backoffs ≠ [2, 4, 8] := by
  constructor
  · intro a _ _
    exact ⟨" boom ", rfl, by decide⟩
  · decide

/-- C2 (amended): an artifact whose three attempts all fail with
non-local-configuration errors is attempted exactly 3 times, the
backoffs between consecutive attempts are 2 then 4 seconds (there is no
backoff after the final attempt), and the terminal error is the final
attempt's stderr trimmed of surrounding whitespace. -/
theorem pull_one_retry_policy (env : PullEnv)
    (h : ∀ a, 1 ≤ a → a ≤ 3 → ∃ s, env a = .failure s ∧ is_local_docker_error s = false) :
    (pull_one env).attempts = 3 ∧ (pull_one env).backoffs = [2, 4] ∧
      ∀ s, env 3 = .failure s → (pull_one env).result = .error (strTrim s) := by
  obtain ⟨s1, h1, l1⟩ := h 1 (by omega) (by omega)
  obtain ⟨s2, h2, l2⟩ := h 2 (by omega) (by omega)
  obtain ⟨s3, h3, l3⟩ := h 3 (by omega) (by omega)
  rw [pull_one_all_fail env s1 s2 s3 h1 h2 h3 l1 l2 l3]
  refine ⟨rfl, rfl, ?_⟩
  intro s hs
  rw [h3] at hs
  cases hs
  rfl

/-- Witness for the amended C2 theorem at the concrete environment whose
attempts all fail with " boom ". -/
theorem pull_one_retry_policy_witness :
    (pull_one envAllBoom).attempts = 3 ∧ (pull_one envAllBoom).backoffs = [2, 4] :=
  ⟨(pull_one_retry_policy envAllBoom fun _ _ _ => ⟨" boom ", rfl, by decide⟩).1,
   (pull_one_retry_policy envAllBoom fun _ _ _ => ⟨" boom ", rfl, by decide⟩).2.1⟩

/-- C3: the classifier lowercases the stderr text but then searches for
the needle "not found in PATH" containing uppercase letters, so the
missing-binary signature is never recognised: the lowercased text does
contain the phrase (second conjunct), yet the classifier reports false
and the pull is retried — three attempts with backoffs instead of the
single attempt the spec prescribes. -/
theorem not_found_in_path_is_retried :
    is_local_docker_error "exec: docker: executable file not found in PATH" = false
      ∧ containsSubstring
          (strToLower "exec: docker: executable file not found in PATH")
          "not found in path" = true
      ∧ (pull_one envNotFound).attempts = 3
      ∧ (pull_one envNotFound).backoffs = [2, 4] := by
  refine ⟨by decide, by decide, ?_, ?_⟩
  · have := pull_one_all_fail envNotFound _ _ _ rfl rfl rfl (by decide) (by decide) (by decide)
    rw [this]
  · have := pull_one_all_fail envNotFound _ _ _ rfl rfl rfl (by decide) (by decide) (by decide)
    rw [this]

/-- C7 counterexample: in the run whose first attempt fails transiently
and whose second attempt succeeds, one retry is performed, yet the
artifact's event trace contains no `Retrying` event at all. -/
theorem retrying_events_counterexample :
    ¬ (countRetrying (artifactEvents 0 "img" envRetryOnce)
        = (pull_one envRetryOnce).attempts - 1)
      ∧ (pull_one envRetryOnce).attempts - 1 = 1 := by
  constructor
  · decide
  · decide

/-- C7 (amended): for every artifact the coordinator emits a `Started`
event followed by exactly one terminal event (`Completed` on success,
`Failed` carrying `attempt = MAX_RETRIES` on failure) and nothing else;
in particular no `Retrying` event is ever emitted, even when retries
are performed. -/
theorem artifact_event_sequence (index : Nat) (image : String) (env : PullEnv) :
    (∃ t, artifactEvents index image env = [.started index image, t] ∧
        ((∃ d, t = .completed index image d)
          ∨ ∃ e, t = .failed index image e MAX_RETRIES))
      ∧ countRetrying (artifactEvents index image env) = 0 := by
  cases hr : (pull_one env).result with
  | ok d =>
    have h : artifactEvents index image env
        = [.started index image, .completed index image d] := by
      simp [artifactEvents, hr]
    rw [h]
    exact ⟨⟨.completed index image d, rfl, .inl ⟨d, rfl⟩⟩, rfl⟩
  | error e =>
    have h : artifactEvents index image env
        = [.started index image, .failed index image e MAX_RETRIES] := by
      simp [artifactEvents, hr]
    rw [h]
    exact ⟨⟨.failed index image e MAX_RETRIES, rfl, .inr ⟨e, rfl⟩⟩, rfl⟩

/-! ## Theorems: deploy sequencer (claims about `main.rs`) -/

/-- C5: when cluster-client construction fails at the start of the
deploy sequence, the message list is exactly one failure event for step
index 0 followed immediately by the completion signal; no step result
from the environment is consulted, so no other step is attempted. -/
theorem deploy_client_failure_short_circuit (e : String)
    (stepResults : Nat → Except String Unit)
    (images : List ManifestImageM) (skipExtensions : Bool) :
    run_deploy_sequence (some e) stepResults images skipExtensions
        = [.step 0 (.error e), .done]
      ∧ countStepMsgs (run_deploy_sequence (some e) stepResults images skipExtensions) = 1 := by
  exact ⟨rfl, rfl⟩

/-- C4: on the repository's own default manifest (with extensions not
skipped) the sequencer emits 16 step events, but the status table built
by `start_deploy_phase` has only 14 entries — it omits the Toolbox and
Browser extension steps the sequencer executes.  Folding all messages
through `handle_async_msg` leaves the done counter at 14: the counter
reaches `total` after only the first 14 step events, and the final two
reported steps do not increment it, contradicting one-increment-per-
reported-step. -/
theorem deploy_done_counter_bug :
    countStepMsgs (run_deploy_sequence none (fun _ => .ok ()) defaultManifestImages false) = 16
      ∧ (initialDeployTable defaultManifestImages false).length = 14
      ∧ (runDeployMsgs defaultManifestImages false
          (run_deploy_sequence none (fun _ => .ok ()) defaultManifestImages false)).2 = 14
      ∧ (runDeployMsgs defaultManifestImages false
          ((run_deploy_sequence none (fun _ => .ok ()) defaultManifestImages false).take 14)).2
          = 14 := by
  refine ⟨by decide, by decide, by decide, by decide⟩


/-! ## Theorems: secret distribution (`create_all_secrets`) -/

/-- Helper: a key satisfying the messaging predicate is one of the three
messaging credential keys. -/
theorem isMessagingKey_vals (k : String) (hm : isMessagingKey k = true) :
    k = "TELEGRAM_BOT_TOKEN" ∨ k = "DISCORD_BOT_TOKEN" ∨ k = "DISCORD_APP_ID" := by
  unfold isMessagingKey at hm
  rcases Bool.or_eq_true_iff.mp hm with h | h
  · rcases Bool.or_eq_true_iff.mp h with h1 | h1
    · exact .inl (beq_iff_eq.mp h1)
    · exact .inr (.inl (beq_iff_eq.mp h1))
  · exact .inr (.inr (beq_iff_eq.mp h))

/-- Helper: the inner feature-secrets loop accumulates exactly the
captured messaging credentials into the gateway payload and emits
exactly the dedicated provider calls. -/
theorem featureSecretsLoop_eq (gw : SMap) (pairs : List (String × Option String)) :
    featureSecretsLoop gw pairs =
      (((capturedOf pairs).filter fun q => isMessagingKey q.1).foldl
          (fun m q => smapInsert m q.1 q.2) gw,
       providerCalls (capturedOf pairs)) := by
  induction pairs generalizing gw with
  | nil => rfl
  | cons p t ih =>
    obtain ⟨k, v⟩ := p
    cases v with
    | none => simpa [featureSecretsLoop, capturedOf, providerCalls] using ih gw
    | some v =>
      by_cases hm : isMessagingKey k = true
      · have hgP : k ≠ "GITHUB_TOKEN" := by
          rcases isMessagingKey_vals k hm with h | h | h <;> subst h <;> decide
        have hpP : k ≠ "PERPLEXITY_API_KEY" := by
          rcases isMessagingKey_vals k hm with h | h | h <;> subst h <;> decide
        simp only [featureSecretsLoop, hm, if_true]
        rw [ih (smapInsert gw k v)]
        simp [capturedOf, providerCalls, List.filter_cons, hm, hgP, hpP]
      · have hm2 : isMessagingKey k = false := by simpa using hm
        by_cases hg : k = "GITHUB_TOKEN"
        · subst hg
          simp only [featureSecretsLoop, hm2, Bool.false_eq_true, if_false, if_true]
          rw [ih gw]
          simp [capturedOf, providerCalls, hm2]
        · have hgB : (k == "GITHUB_TOKEN") = false := by
            simpa using hg
          by_cases hp : k = "PERPLEXITY_API_KEY"
          · subst hp
            simp only [featureSecretsLoop, hm2, Bool.false_eq_true, if_false, hgB, if_true]
            rw [ih gw]
            simp [capturedOf, providerCalls, hm2]
          · have hpB : (k == "PERPLEXITY_API_KEY") = false := by
              simpa using hp
            simp only [featureSecretsLoop, hm2, Bool.false_eq_true, if_false, hgB, hpB]
            rw [ih gw]
            simp [capturedOf, providerCalls, hm2, hg, hp]

/-- Helper: the gateway loop over all features routes exactly the
captured pairs of the enabled features. -/
theorem gatewayLoop_eq (gw : SMap) (features : List FeatureSel) :
    gatewayLoop gw features =
      (((capturedPairs features).filter fun q => isMessagingKey q.1).foldl
          (fun m q => smapInsert m q.1 q.2) gw,
       providerCalls (capturedPairs features)) := by
  induction features generalizing gw with
  | nil => rfl
  | cons f fs ih =>
    by_cases he : f.enabled
    · simp only [gatewayLoop, he, if_true, featureSecretsLoop_eq]
      rw [ih]
      simp [capturedPairs, providerCalls, capturedOf, he, List.filter_append,
        List.foldl_append, List.filterMap_append]
    · have he2 : f.enabled = false := by simpa using he
      simp only [gatewayLoop, he2, Bool.false_eq_true, if_false]
      rw [ih gw]
      simp [capturedPairs, he2]

/-- Helper: removing the disabled features changes nothing — the gateway
loop skips them. -/
theorem gatewayLoop_filter_enabled (gw : SMap) (features : List FeatureSel) :
    gatewayLoop gw (features.filter fun f => f.enabled) = gatewayLoop gw features := by
  induction features generalizing gw with
  | nil => rfl
  | cons f fs ih =>
    by_cases he : f.enabled
    · simp only [List.filter_cons, he, if_true, gatewayLoop]
      simp [ih]
    · have he2 : f.enabled = false := by simpa using he
      simp [List.filter_cons, he2, gatewayLoop, ih]

/-- C8: the secrets created are exactly brain, worker, one dedicated
single-key secret per captured `GITHUB_TOKEN` or `PERPLEXITY_API_KEY`
value of an enabled feature, and the gateway secret holding the auth
token plus exactly the captured messaging-platform credentials of the
enabled features; and the whole output is unchanged when the disabled
features are removed, so their captured values appear in no target
group. -/
theorem secret_routing_correct (config : InstallConfigM) :
    create_all_secrets config =
      ("bakerst-brain-secrets", brainData config) ::
        ("bakerst-worker-secrets", workerData config) ::
          providerCalls (capturedPairs config.features) ++
            [("bakerst-gateway-secrets",
              gatewayRoute config.auth_token (capturedPairs config.features))]
      ∧ create_all_secrets config
          = create_all_secrets
              { config with features := config.features.filter fun f => f.enabled } := by
  constructor
  · simp [create_all_secrets, gatewayLoop_eq, gatewayRoute]
  · simp only [create_all_secrets]
    rw [gatewayLoop_filter_enabled]
    rfl

/-! ## Theorems: phase machine and auth-token generation -/

/-- Helper: submitting a secret never touches the auth token. -/
theorem submit_auth (app : AppM) :
    (submit_current_secret app).config.auth_token = app.config.auth_token := by
  unfold submit_current_secret
  dsimp only
  split
  · rfl
  · split
    · rfl
    · dsimp only
      split <;> try rfl
      split <;> try rfl
      split <;> try rfl
      split <;> try rfl
      split <;> try rfl
      split <;> rfl

/-- Helper: the Secrets-phase key handler never touches the auth token. -/
theorem handle_secrets_auth (app : AppM) (key : KeyCodeM) :
    (handle_secrets_key app key).config.auth_token = app.config.auth_token := by
  unfold handle_secrets_key
  split
  · rfl
  · split <;> try rfl
    · exact submit_auth app
    · split
      · split <;> rfl
      · rfl

/-- Helper: `advance` never touches the configuration. -/
theorem advance_config (app : AppM) : app.advance.config = app.config := by
  unfold AppM.advance
  split <;> rfl

/-- Helper: `back_to_secrets` never touches the configuration. -/
theorem back_to_secrets_config (app : AppM) :
    app.back_to_secrets.config = app.config := by
  unfold AppM.back_to_secrets
  split <;> rfl

/-- Helper: the Confirm-phase key handler never touches the configuration. -/
theorem handle_confirm_config (app : AppM) (key : KeyCodeM) :
    (handle_confirm_key app key).config = app.config := by
  unfold handle_confirm_key
  split <;> try rfl
  · split
    · exact advance_config app
    · exact back_to_secrets_config app
  · split <;> rfl

theorem autoAdvance_config (app : AppM) :
    (autoAdvanceSecrets app).config = app.config := by
  unfold autoAdvanceSecrets
  split
  · split
    · rfl
    · exact advance_config app
  · rfl

/-- Helper: the Features-phase key handler regenerates the auth token
exactly on Enter. -/
theorem handle_features_snd (app : AppM) (key : KeyCodeM) (tok : String) :
    (handle_features_key app key tok).2 = true ↔ key = .enter := by
  cases key with
  | enter =>
    simp only [handle_features_key]
    split <;> simp
  | char c =>
    simp only [handle_features_key]
    split
    · simp
    · split <;> simp
  | up => simp [handle_features_key]
  | down => simp [handle_features_key]
  | backspace => simp [handle_features_key]
  | esc => simp [handle_features_key]
  | left => simp [handle_features_key]
  | right => simp [handle_features_key]

/-- Helper: every non-Enter Features keypress leaves the auth token
unchanged. -/
theorem handle_features_auth_preserved (app : AppM) (key : KeyCodeM) (tok : String)
    (h : (handle_features_key app key tok).2 = false) :
    ((handle_features_key app key tok).1).config.auth_token = app.config.auth_token := by
  cases key with
  | enter =>
    exact absurd ((handle_features_snd app .enter tok).mpr rfl) (by simp [h])
  | char c =>
    simp only [handle_features_key]
    split
    · dsimp only
      split <;> rfl
    · split <;> rfl
  | up =>
    simp only [handle_features_key]
    split <;> rfl
  | down =>
    simp only [handle_features_key]
    split <;> rfl
  | backspace => rfl
  | esc => rfl
  | left => rfl
  | right => rfl

/-- Helper: the Features Enter keypress stores the freshly generated
token. -/
theorem handle_features_auth_set (app : AppM) (key : KeyCodeM) (tok : String)
    (h : (handle_features_key app key tok).2 = true) :
    ((handle_features_key app key tok).1).config.auth_token = tok := by
  have hk : key = .enter := (handle_features_snd app key tok).mp h
  subst hk
  simp only [handle_features_key]
  split
  · rw [advance_config]
  · rfl

/-- Helper: per-phase facts about one keypress — the auth token is
written exactly by Enter in the Features phase, and from Confirm onward
no keypress touches the configuration. -/
theorem handle_key_facts (app : AppM) (k : KeyCodeM) (tok : String) :
    ((handle_key app k tok).2 = true ↔ (app.phase = .features ∧ k = .enter))
      ∧ ((handle_key app k tok).2 = false →
          ((handle_key app k tok).1).config.auth_token = app.config.auth_token)
      ∧ ((handle_key app k tok).2 = true →
          ((handle_key app k tok).1).config.auth_token = tok)
      ∧ (PhaseM.confirm.idx ≤ app.phase.idx →
          ((handle_key app k tok).1).config = app.config
            ∧ (handle_key app k tok).2 = false) := by
  cases hph : app.phase with
  | secrets =>
    refine ⟨by simp [handle_key, hph], ?_, by simp [handle_key, hph], ?_⟩
    · intro _
      simp only [handle_key, hph]
      exact handle_secrets_auth app k
    · intro hc
      simp [hph, PhaseM.idx] at hc
  | features =>
    refine ⟨?_, ?_, ?_, ?_⟩
    · simp only [handle_key, hph]
      simpa [hph] using handle_features_snd app k tok
    · simp only [handle_key, hph]
      exact handle_features_auth_preserved app k tok
    · simp only [handle_key, hph]
      exact handle_features_auth_set app k tok
    · intro hc
      simp [hph, PhaseM.idx] at hc
  | confirm =>
    refine ⟨by simp [handle_key, hph], ?_, by simp [handle_key, hph], ?_⟩
    · intro _
      simp only [handle_key, hph]
      rw [handle_confirm_config]
    · intro _
      exact ⟨by simp only [handle_key, hph]; rw [handle_confirm_config],
             by simp [handle_key, hph]⟩
  | preflight =>
    refine ⟨by simp [handle_key, hph], ?_, by simp [handle_key, hph], ?_⟩
    · intro _
      simp only [handle_key, hph]
      cases k <;> try rfl
      dsimp only
      split <;> rfl
    · intro hc
      simp [hph, PhaseM.idx] at hc
  | pull =>
    refine ⟨by simp [handle_key, hph], ?_, by simp [handle_key, hph], ?_⟩
    · intro _
      simp only [handle_key, hph]
      cases k <;> try rfl
      dsimp only
      split <;> rfl
    · intro _
      refine ⟨?_, by simp [handle_key, hph]⟩
      simp only [handle_key, hph]
      cases k <;> try rfl
      dsimp only
      split <;> rfl
  | deploy =>
    refine ⟨by simp [handle_key, hph], ?_, by simp [handle_key, hph], ?_⟩
    · intro _
      simp only [handle_key, hph]
      cases k <;> try rfl
      dsimp only
      split <;> rfl
    · intro _
      refine ⟨?_, by simp [handle_key, hph]⟩
      simp only [handle_key, hph]
      cases k <;> try rfl
      dsimp only
      split <;> rfl
  | health =>
    refine ⟨by simp [handle_key, hph], ?_, by simp [handle_key, hph], ?_⟩
    · intro _
      simp only [handle_key, hph]
      cases k <;> try rfl
      dsimp only
      split <;> rfl
    · intro _
      refine ⟨?_, by simp [handle_key, hph]⟩
      simp only [handle_key, hph]
      cases k <;> try rfl
      dsimp only
      split <;> rfl
  | complete =>
    refine ⟨by simp [handle_key, hph], ?_, by simp [handle_key, hph], ?_⟩
    · intro _
      simp only [handle_key, hph]
      cases k <;> try rfl
      dsimp only
      split <;> rfl
    · intro _
      refine ⟨?_, by simp [handle_key, hph]⟩
      simp only [handle_key, hph]
      cases k <;> try rfl
      dsimp only
      split <;> rfl

/-- C9 (amended): a control-loop step taken in the Confirm phase or any
later phase leaves the install configuration unchanged and performs no
auth-token generation; the auth token is (re)generated exactly by the
Enter keypress that completes the Features phase (whether it advances to
Confirm directly or detours through Secrets) and is then set to the
freshly generated value, while every other step preserves it — so the
token is generated once per pass through Features, which is once per
install only when the operator never cancels from Confirm back to
Secrets. -/
theorem config_mutation_after_confirm (app : AppM) (inp : LoopInput) (tok : String) :
    (PhaseM.confirm.idx ≤ app.phase.idx →
      ((loopStep app inp tok).1).config = app.config ∧ (loopStep app inp tok).2 = false)
      ∧ ((loopStep app inp tok).2 = true ↔ (app.phase = .features ∧ inp = .key .enter))
      ∧ ((loopStep app inp tok).2 = false →
          ((loopStep app inp tok).1).config.auth_token = app.config.auth_token)
      ∧ ((loopStep app inp tok).2 = true →
          ((loopStep app inp tok).1).config.auth_token = tok) := by
  cases inp with
  | key k =>
    obtain ⟨hiff, hpres, hset, hconf⟩ := handle_key_facts app k tok
    refine ⟨?_, ?_, ?_, ?_⟩
    · intro h
      obtain ⟨hc, hw⟩ := hconf h
      exact ⟨by simp only [loopStep]; rw [autoAdvance_config, hc], by simpa [loopStep] using hw⟩
    · simp only [loopStep]
      rw [show ((autoAdvanceSecrets (handle_key app k tok).1, (handle_key app k tok).2) :
          AppM × Bool).2 = (handle_key app k tok).2 from rfl, hiff]
      simp
    · intro h
      simp only [loopStep] at h ⊢
      rw [autoAdvance_config]
      exact hpres h
    · intro h
      simp only [loopStep] at h ⊢
      rw [autoAdvance_config]
      exact hset h
  | coordinatorDone =>
    refine ⟨?_, by simp [loopStep], ?_, by simp [loopStep]⟩
    · intro _
      refine ⟨?_, rfl⟩
      simp only [loopStep]
      rw [autoAdvance_config]
      split
      · exact advance_config app
      · rfl
    · intro _
      simp only [loopStep]
      rw [autoAdvance_config]
      split
      · rw [advance_config]
      · rfl
  | tick =>
    refine ⟨?_, by simp [loopStep], ?_, by simp [loopStep]⟩
    · intro _
      exact ⟨by simp only [loopStep]; rw [autoAdvance_config], rfl⟩
    · intro _
      simp only [loopStep]
      rw [autoAdvance_config]

/-- C9 counterexample: an install run that reaches Confirm, cancels back
to Secrets, and confirms again performs two auth-token generations, not
exactly one. -/
theorem auth_token_regeneration_counterexample :
    ¬ ((runLoop app0 cancelRetryInputs).2 = 1)
      ∧ (runLoop app0 cancelRetryInputs).2 = 2 := by
  exact ⟨by decide, by decide⟩

/-- Witness for the amended C9 theorem: a Confirm-phase Enter leaves the
configuration untouched, and a Features-phase Enter stores the fresh
token. -/
theorem config_mutation_after_confirm_witness :
    ((loopStep { app0 with phase := .confirm } (.key .enter) "tok").1).config
        = { app0 with phase := .confirm }.config
      ∧ ((loopStep { app0 with phase := .features } (.key .enter) "T9").1).config.auth_token
        = "T9" :=
  ⟨((config_mutation_after_confirm { app0 with phase := .confirm } (.key .enter) "tok").1
      (by decide)).1,
   (config_mutation_after_confirm { app0 with phase := .features }
      (.key .enter) "T9").2.2.2 (by decide)⟩

/-! ## Theorems: health monitor (`poll_health`) -/

/-- Helper: lookup after a counter store. -/
theorem recLookup_insert (m : RecMap) (k : String) (v : Nat) (k0 : String) :
    recLookup (recInsert m k v) k0 = if k0 == k then v else recLookup m k0 := by
  induction m with
  | nil =>
    by_cases h : k == k0
    · have h2 : k = k0 := beq_iff_eq.mp h
      subst h2
      simp [recInsert, recLookup]
    · have h2 : (k == k0) = false := by simpa using h
      have h3 : (k0 == k) = false := by
        rcases Bool.eq_false_iff.mp h2 with _
        by_cases hq : k0 = k
        · subst hq; simp at h2
        · simpa using hq
      simp [recInsert, recLookup, h2, h3]
  | cons e t ih =>
    obtain ⟨k1, v1⟩ := e
    by_cases h : k1 == k
    · simp only [recInsert, h, if_true]
      by_cases h0 : k1 == k0
      · have e1 : k1 = k := beq_iff_eq.mp h
        have e2 : k1 = k0 := beq_iff_eq.mp h0
        subst e1
        have : (k0 == k1) = true := by simp [← e2]
        simp [recLookup, h0, this, e2]
      · have e1 : k1 = k := beq_iff_eq.mp h
        subst e1
        have : (k0 == k1) = false := by
          by_cases hq : k0 = k1
          · subst hq; simp at h0
          · simpa using hq
        simp [recLookup, h0, this]
    · simp only [recInsert, h, Bool.false_eq_true, if_false]
      by_cases h0 : k1 == k0
      · have e2 : k1 = k0 := beq_iff_eq.mp h0
        subst e2
        have hk : (k1 == k) = false := by simpa using h
        have hkr : ¬ k1 = k := by simpa using hk
        simp [recLookup, ih, hkr]
      · have h0f : (k1 == k0) = false := by simpa using h0
        simp [recLookup, h0f, ih]

/-- Helper: one recovery block changes the counter of its own deployment
by exactly the number of recovery events it emits (0 or 1), keeps every
counter at or below 3, emits attempts of at most 3, and emits no
terminal event. -/
theorem recoverPod_facts (d : String) (rec : RecMap) (pod : PodObs) (d0 : String) :
    recLookup (recoverPod d rec pod).1 d0
        = recLookup rec d0 + countRecoveryFor d0 (recoverPod d rec pod).2.toList
      ∧ (recLookup rec d0 ≤ 3 → recLookup (recoverPod d rec pod).1 d0 ≤ 3)
      ∧ (∀ a, HealthEventM.recoveryAttempt d0 a ∈ (recoverPod d rec pod).2.toList → a ≤ 3)
      ∧ countTerminal (recoverPod d rec pod).2.toList = 0 := by
  unfold recoverPod
  by_cases hc : isCrashLoop pod
  · simp only [hc, if_true]
    by_cases hlt : recLookup rec d < MAX_RECOVERY_ATTEMPTS
    · simp only [hlt, if_true]
      by_cases hd : d0 = d
      · subst hd
        have hb : (d0 == d0) = true := by simp
        refine ⟨?_, ?_, ?_, ?_⟩
        · simp [recLookup_insert, hb, countRecoveryFor]
        · intro _
          simp only [recLookup_insert, hb, if_true]
          unfold MAX_RECOVERY_ATTEMPTS at hlt
          omega
        · intro a ha
          simp only [Option.toList_some, List.mem_singleton] at ha
          cases ha
          unfold MAX_RECOVERY_ATTEMPTS at hlt
          omega
        · rfl
      · have hb : (d0 == d) = false := by simpa using hd
        have hb2 : (d == d0) = false := by
          by_cases hq : d = d0
          · exact absurd hq.symm hd
          · simpa using hq
        refine ⟨?_, ?_, ?_, ?_⟩
        · simp [recLookup_insert, hb, countRecoveryFor, hb2]
        · intro h
          simpa [recLookup_insert, hb] using h
        · intro a ha
          simp only [Option.toList_some, List.mem_singleton] at ha
          cases ha
          exact absurd rfl hd
        · rfl
    · simp only [hlt, if_false]
      by_cases hd : d0 = d
      · subst hd
        have hb : (d0 == d0) = true := by simp
        refine ⟨by simp [recLookup_insert, hb, countRecoveryFor], ?_, by simp, rfl⟩
        · intro h
          simpa [recLookup_insert, hb] using h
      · have hb : (d0 == d) = false := by simpa using hd
        refine ⟨by simp [recLookup_insert, hb, countRecoveryFor], ?_, by simp, rfl⟩
        · intro h
          simpa [recLookup_insert, hb] using h
  · have hc2 : isCrashLoop pod = false := by simpa using hc
    simp [hc2, countRecoveryFor, countTerminal]

/-- Helper: recovery-event counting distributes over append. -/
theorem countRecoveryFor_append (d : String) (a b : List HealthEventM) :
    countRecoveryFor d (a ++ b) = countRecoveryFor d a + countRecoveryFor d b := by
  simp [countRecoveryFor, List.countP_append]

/-- Helper: terminal-event counting distributes over append. -/
theorem countTerminal_append (a b : List HealthEventM) :
    countTerminal (a ++ b) = countTerminal a + countTerminal b := by
  simp [countTerminal, List.countP_append]

/-- Helper: the all-ready flag and the unhealthy list of one deployment
pass do not depend on the recovery counters. -/
theorem cyclePods_pure (d : String) (rec : RecMap) (pods : List PodObs) :
    (cyclePods d rec pods).2.2.1 = (pods.all fun p => (podHealthOf d p).ready)
      ∧ (cyclePods d rec pods).2.2.2
        = pods.filterMap fun p =>
            if (podHealthOf d p).ready then none else some (podHealthOf d p) := by
  induction pods generalizing rec with
  | nil => exact ⟨rfl, rfl⟩
  | cons p ps ih =>
    rcases h1 : recoverPod d rec p with ⟨rec1, ev⟩
    rcases h2 : cyclePods d rec1 ps with ⟨rec2, evs, allH, unh⟩
    obtain ⟨ihA, ihU⟩ := ih rec1
    rw [h2] at ihA ihU
    dsimp only at ihA ihU
    simp only [cyclePods, h1, h2]
    constructor
    · simp [ihA]
    · simp only [List.filterMap_cons]
      by_cases hr : (podHealthOf d p).ready
      · simp [hr, ihU]
      · have hr2 : (podHealthOf d p).ready = false := by simpa using hr
        simp [hr2, ihU]

/-- Helper: counter and event accounting for one deployment pass. -/
theorem cyclePods_rec (d : String) (rec : RecMap) (pods : List PodObs) (d0 : String) :
    (recLookup (cyclePods d rec pods).1 d0
        = recLookup rec d0 + countRecoveryFor d0 (cyclePods d rec pods).2.1)
      ∧ (recLookup rec d0 ≤ 3 → recLookup (cyclePods d rec pods).1 d0 ≤ 3)
      ∧ (∀ a, HealthEventM.recoveryAttempt d0 a ∈ (cyclePods d rec pods).2.1 → a ≤ 3)
      ∧ countTerminal (cyclePods d rec pods).2.1 = 0 := by
  induction pods generalizing rec with
  | nil =>
    exact ⟨by simp [cyclePods, countRecoveryFor], fun h => by simpa [cyclePods] using h,
      by simp [cyclePods], by simp [cyclePods, countTerminal]⟩
  | cons p ps ih =>
    rcases h1 : recoverPod d rec p with ⟨rec1, ev⟩
    rcases h2 : cyclePods d rec1 ps with ⟨rec2, evs, allH, unh⟩
    obtain ⟨rpEq, rpLe, rpMem, rpTerm⟩ := recoverPod_facts d rec p d0
    rw [h1] at rpEq rpLe rpMem rpTerm
    dsimp only at rpEq rpLe rpMem rpTerm
    obtain ⟨ihEq, ihLe, ihMem, ihTerm⟩ := ih rec1
    rw [h2] at ihEq ihLe ihMem ihTerm
    dsimp only at ihEq ihLe ihMem ihTerm
    simp only [cyclePods, h1, h2]
    refine ⟨?_, ?_, ?_, ?_⟩
    · simp only [countRecoveryFor_append]
      have hpu : countRecoveryFor d0 [HealthEventM.podUpdate (podHealthOf d p)] = 0 := rfl
      simp only [hpu]
      omega
    · intro h
      exact ihLe (rpLe h)
    · intro a ha
      simp only [List.mem_append, List.mem_singleton] at ha
      rcases ha with (ha | ha) | ha
      · exact rpMem a ha
      · cases ha
      · exact ihMem a ha
    · simp only [countTerminal_append, rpTerm, ihTerm]
      rfl

/-- Helper: one whole cycle succeeds exactly when every list call
succeeds, in which case its all-ready flag and unhealthy list are the
pure per-cycle values; in both the success and the error case the
counter accounting carries over and no terminal event is emitted. -/
theorem cycleDeps_facts (env : HealthEnv) (c : Nat) (names : List String) (rec : RecMap)
    (d0 : String) :
    (∀ rec1 evs allH unh, cycleDeps env c rec names = .ok (rec1, evs, allH, unh) →
        listOkCycle env names c = true
          ∧ allH = allReadyCycle env names c
          ∧ unh = cycleUnhealthyPure env names c
          ∧ recLookup rec1 d0 = recLookup rec d0 + countRecoveryFor d0 evs
          ∧ (recLookup rec d0 ≤ 3 → recLookup rec1 d0 ≤ 3)
          ∧ (∀ a, HealthEventM.recoveryAttempt d0 a ∈ evs → a ≤ 3)
          ∧ countTerminal evs = 0)
      ∧ (∀ evs e, cycleDeps env c rec names = .error (evs, e) →
          listOkCycle env names c = false
            ∧ (recLookup rec d0 ≤ 3 → countRecoveryFor d0 evs + recLookup rec d0 ≤ 3)
            ∧ (∀ a, HealthEventM.recoveryAttempt d0 a ∈ evs → a ≤ 3)
            ∧ countTerminal evs = 0) := by
  induction names generalizing rec with
  | nil =>
    constructor
    · intro rec1 evs allH unh h
      simp only [cycleDeps] at h
      cases h
      exact ⟨rfl, rfl, rfl, by simp [countRecoveryFor], fun h => h, by simp, rfl⟩
    · intro evs e h
      simp only [cycleDeps] at h
      exact Except.noConfusion h
  | cons d ds ih =>
    cases hp : env.pods c d with
    | error e0 =>
      constructor
      · intro rec1 evs allH unh h
        simp only [cycleDeps, hp] at h
        exact Except.noConfusion h
      · intro evs e h
        simp only [cycleDeps, hp, Except.error.injEq, Prod.mk.injEq] at h
        obtain ⟨h1, h2⟩ := h
        subst h1
        refine ⟨by simp [listOkCycle, hp], ?_, by simp, rfl⟩
        intro hle
        simpa [countRecoveryFor] using hle
    | ok pods =>
      rcases h1 : cyclePods d rec pods with ⟨rec1, evs1, allH1, unh1⟩
      obtain ⟨cpEq, cpLe, cpMem, cpTerm⟩ := cyclePods_rec d rec pods d0
      rw [h1] at cpEq cpLe cpMem cpTerm
      dsimp only at cpEq cpLe cpMem cpTerm
      obtain ⟨cpAllH, cpUnh⟩ := cyclePods_pure d rec pods
      rw [h1] at cpAllH cpUnh
      dsimp only at cpAllH cpUnh
      obtain ⟨ihOk, ihErr⟩ := ih rec1
      cases h2 : cycleDeps env c rec1 ds with
      | error pr =>
        obtain ⟨evs2, e2⟩ := pr
        obtain ⟨eLok, eCnt, eMem, eTerm⟩ := ihErr evs2 e2 h2
        constructor
        · intro rec3 evs allH unh h
          simp only [cycleDeps, hp, h1, h2] at h
          exact Except.noConfusion h
        · intro evs e h
          simp only [cycleDeps, hp, h1, h2, Except.error.injEq, Prod.mk.injEq] at h
          obtain ⟨hevs, hee⟩ := h
          subst hevs
          refine ⟨?_, ?_, ?_, ?_⟩
          · have hstep : listOkCycle env (d :: ds) c = listOkCycle env ds c := by
              simp [listOkCycle, hp]
            rw [hstep, eLok]
          · intro hle
            have hb := eCnt (cpLe hle)
            rw [countRecoveryFor_append]
            omega
          · intro a ha
            rcases List.mem_append.mp ha with ha | ha
            · exact cpMem a ha
            · exact eMem a ha
          · rw [countTerminal_append, cpTerm, eTerm]
      | ok q =>
        obtain ⟨rec2, evs2, allH2, unh2⟩ := q
        obtain ⟨oLok, oAllH, oUnh, oEq, oLe, oMem, oTerm⟩ := ihOk rec2 evs2 allH2 unh2 h2
        constructor
        · intro rec3 evs allH unh h
          simp only [cycleDeps, hp, h1, h2, Except.ok.injEq, Prod.mk.injEq] at h
          obtain ⟨hr, he, hA, hU⟩ := h
          subst hr
          subst he
          subst hA
          subst hU
          refine ⟨?_, ?_, ?_, ?_, ?_, ?_, ?_⟩
          · have hstep : listOkCycle env (d :: ds) c = listOkCycle env ds c := by
              simp [listOkCycle, hp]
            rw [hstep, oLok]
          · have hstep : allReadyCycle env (d :: ds) c
                = ((pods.all fun p => (podHealthOf d p).ready)
                    && allReadyCycle env ds c) := by
              simp [allReadyCycle, hp]
            rw [hstep, cpAllH, oAllH]
          · have hstep : cycleUnhealthyPure env (d :: ds) c
                = (pods.filterMap fun p =>
                    if (podHealthOf d p).ready then none else some (podHealthOf d p))
                  ++ cycleUnhealthyPure env ds c := by
              simp [cycleUnhealthyPure, hp]
            rw [hstep, cpUnh, oUnh]
          · rw [countRecoveryFor_append]
            omega
          · intro hle
            exact oLe (cpLe hle)
          · intro a ha
            rcases List.mem_append.mp ha with ha | ha
            · exact cpMem a ha
            · exact oMem a ha
          · rw [countTerminal_append, cpTerm, oTerm]
        · intro evs e h
          simp only [cycleDeps, hp, h1, h2] at h
          exact Except.noConfusion h

/-- Helper: across any run of the polling loop, a deployment whose
counter starts at or below 3 gains at most the remaining budget in
recovery events, each with attempt number at most 3. -/
theorem pollHealthGo_recovery (env : HealthEnv) (names : List String) (d0 : String) :
    ∀ fuel c rec, recLookup rec d0 ≤ 3 →
      countRecoveryFor d0 (pollHealthGo env names c fuel rec).1 + recLookup rec d0 ≤ 3
        ∧ (∀ a, HealthEventM.recoveryAttempt d0 a ∈ (pollHealthGo env names c fuel rec).1 →
            a ≤ 3) := by
  intro fuel
  induction fuel with
  | zero =>
    intro c rec hle
    exact ⟨by simpa [pollHealthGo, countRecoveryFor] using hle, by simp [pollHealthGo]⟩
  | succ f ih =>
    intro c rec hle
    obtain ⟨dOk, dErr⟩ := cycleDeps_facts env c names rec d0
    cases hc : cycleDeps env c rec names with
    | error pr =>
      obtain ⟨evs, e⟩ := pr
      obtain ⟨_, eCnt, eMem, _⟩ := dErr evs e hc
      constructor
      · simpa [pollHealthGo, hc] using eCnt hle
      · intro a ha
        rw [show (pollHealthGo env names c (f + 1) rec).1 = evs by simp [pollHealthGo, hc]] at ha
        exact eMem a ha
    | ok q =>
      obtain ⟨rec1, evs, allH, unh⟩ := q
      obtain ⟨_, _, _, oEq, oLe, oMem, _⟩ := dOk rec1 evs allH unh hc
      by_cases hterm : (allH && !names.isEmpty) = true
      · have htr : (pollHealthGo env names c (f + 1) rec).1 = evs ++ [.allHealthy] := by
          simp [pollHealthGo, hc, hterm]
        constructor
        · rw [htr, countRecoveryFor_append]
          have hc1 : countRecoveryFor d0 [HealthEventM.allHealthy] = 0 := rfl
          have := oLe hle
          omega
        · intro a ha
          rw [htr] at ha
          rcases List.mem_append.mp ha with ha | ha
          · exact oMem a ha
          · simp at ha
      · by_cases htime : env.elapsedSec c > 120
        · have htr : (pollHealthGo env names c (f + 1) rec).1
              = evs ++ [.failed (unh.map fun p =>
                  { p with logs_tail := some (env.logsTail c p.name) })] := by
            simp [pollHealthGo, hc, hterm, htime]
          constructor
          · rw [htr, countRecoveryFor_append]
            have hc1 : ∀ u, countRecoveryFor d0 [HealthEventM.failed u] = 0 := fun _ => rfl
            have := oLe hle
            rw [hc1]
            omega
          · intro a ha
            rw [htr] at ha
            rcases List.mem_append.mp ha with ha | ha
            · exact oMem a ha
            · simp at ha
        · rcases hr : pollHealthGo env names (c + 1) f rec1 with ⟨tr2, out2⟩
          have htr : (pollHealthGo env names c (f + 1) rec).1 = evs ++ tr2 := by
            simp [pollHealthGo, hc, hterm, htime, hr]
          obtain ⟨ihCnt, ihMem⟩ := ih (c + 1) rec1 (oLe hle)
          rw [hr] at ihCnt ihMem
          dsimp only at ihCnt ihMem
          constructor
          · rw [htr, countRecoveryFor_append]
            omega
          · intro a ha
            rw [htr] at ha
            rcases List.mem_append.mp ha with ha | ha
            · exact oMem a ha
            · exact ihMem a ha

/-- Helper: the trace holds exactly one terminal event when the run ends
in `AllHealthy` or `Failed` and none otherwise. -/
theorem pollHealthGo_terminal_count (env : HealthEnv) (names : List String) :
    ∀ fuel c rec,
      countTerminal (pollHealthGo env names c fuel rec).1 =
        (match (pollHealthGo env names c fuel rec).2 with
          | .allHealthy => 1
          | .failed _ => 1
          | .apiError _ => 0
          | .fuelOut => 0) := by
  intro fuel
  induction fuel with
  | zero =>
    intro c rec
    simp [pollHealthGo, countTerminal]
  | succ f ih =>
    intro c rec
    obtain ⟨dOk, dErr⟩ := cycleDeps_facts env c names rec ""
    cases hc : cycleDeps env c rec names with
    | error pr =>
      obtain ⟨evs, e⟩ := pr
      obtain ⟨_, _, _, eTerm⟩ := dErr evs e hc
      simp [pollHealthGo, hc, eTerm]
    | ok q =>
      obtain ⟨rec1, evs, allH, unh⟩ := q
      obtain ⟨_, _, _, _, _, _, oTerm⟩ := dOk rec1 evs allH unh hc
      by_cases hterm : (allH && !names.isEmpty) = true
      · have htr : (pollHealthGo env names c (f + 1) rec).1 = evs ++ [.allHealthy] := by
          simp [pollHealthGo, hc, hterm]
        have hout : (pollHealthGo env names c (f + 1) rec).2 = .allHealthy := by
          simp [pollHealthGo, hc, hterm]
        rw [htr, hout, countTerminal_append, oTerm]
        rfl
      · by_cases htime : env.elapsedSec c > 120
        · have htr : (pollHealthGo env names c (f + 1) rec).1
              = evs ++ [.failed (unh.map fun p =>
                  { p with logs_tail := some (env.logsTail c p.name) })] := by
            simp [pollHealthGo, hc, hterm, htime]
          have hout : (pollHealthGo env names c (f + 1) rec).2
              = .failed (unh.map fun p =>
                  { p with logs_tail := some (env.logsTail c p.name) }) := by
            simp [pollHealthGo, hc, hterm, htime]
          rw [htr, hout, countTerminal_append, oTerm]
          rfl
        · rcases hr : pollHealthGo env names (c + 1) f rec1 with ⟨tr2, out2⟩
          have hrec := ih (c + 1) rec1
          rw [hr] at hrec
          dsimp only at hrec
          have htr : (pollHealthGo env names c (f + 1) rec).1 = evs ++ tr2 := by
            simp [pollHealthGo, hc, hterm, htime, hr]
          have hout : (pollHealthGo env names c (f + 1) rec).2 = out2 := by
            simp [pollHealthGo, hc, hterm, htime, hr]
          rw [htr, hout, countTerminal_append, oTerm]
          simpa using hrec

/-- Helper: an `AllHealthy` outcome certifies an all-ready cycle with a
nonempty deployment list, and a `Failed` outcome carries precisely the
final cycle of unhealthy pods with attached log tails, past the time
ceiling. -/
theorem pollHealthGo_outcomes (env : HealthEnv) (names : List String) :
    ∀ fuel c rec,
      ((pollHealthGo env names c fuel rec).2 = .allHealthy →
        names ≠ [] ∧ ∃ c0, allReadyCycle env names c0 = true)
        ∧ (∀ u, (pollHealthGo env names c fuel rec).2 = .failed u →
            ∃ c0, env.elapsedSec c0 > 120 ∧ listOkCycle env names c0 = true
              ∧ u = (cycleUnhealthyPure env names c0).map
                    fun p => { p with logs_tail := some (env.logsTail c0 p.name) }) := by
  intro fuel
  induction fuel with
  | zero =>
    intro c rec
    constructor
    · intro h
      simp [pollHealthGo] at h
    · intro u h
      simp [pollHealthGo] at h
  | succ f ih =>
    intro c rec
    obtain ⟨dOk, dErr⟩ := cycleDeps_facts env c names rec ""
    cases hc : cycleDeps env c rec names with
    | error pr =>
      obtain ⟨evs, e⟩ := pr
      constructor
      · intro h
        simp [pollHealthGo, hc] at h
      · intro u h
        simp [pollHealthGo, hc] at h
    | ok q =>
      obtain ⟨rec1, evs, allH, unh⟩ := q
      obtain ⟨oLok, oAllH, oUnh, _, _, _, _⟩ := dOk rec1 evs allH unh hc
      by_cases hterm : (allH && !names.isEmpty) = true
      · have hout : (pollHealthGo env names c (f + 1) rec).2 = .allHealthy := by
          simp [pollHealthGo, hc, hterm]
        constructor
        · intro _
          obtain ⟨hA, hne⟩ := Bool.and_eq_true_iff.mp hterm
          refine ⟨by simpa using hne, c, ?_⟩
          rw [← oAllH]
          exact hA
        · intro u h
          rw [hout] at h
          cases h
      · by_cases htime : env.elapsedSec c > 120
        · have hout : (pollHealthGo env names c (f + 1) rec).2
              = .failed (unh.map fun p =>
                  { p with logs_tail := some (env.logsTail c p.name) }) := by
            simp [pollHealthGo, hc, hterm, htime]
          constructor
          · intro h
            rw [hout] at h
            cases h
          · intro u h
            rw [hout] at h
            cases h
            exact ⟨c, htime, oLok, by rw [oUnh]⟩
        · rcases hr : pollHealthGo env names (c + 1) f rec1 with ⟨tr2, out2⟩
          have hout : (pollHealthGo env names c (f + 1) rec).2 = out2 := by
            simp [pollHealthGo, hc, hterm, htime, hr]
          obtain ⟨ihA, ihF⟩ := ih (c + 1) rec1
          rw [hr] at ihA ihF
          dsimp only at ihA ihF
          constructor
          · intro h
            rw [hout] at h
            exact ihA h
          · intro u h
            rw [hout] at h
            exact ihF u h

/-- Helper: once the elapsed-time ceiling is exceeded on a reachable
cycle, the loop does not run out of fuel. -/
theorem pollHealthGo_term (env : HealthEnv) (names : List String) :
    ∀ k c rec fuel, env.elapsedSec (c + k) > 120 → k < fuel →
      (pollHealthGo env names c fuel rec).2 ≠ .fuelOut := by
  intro k
  induction k with
  | zero =>
    intro c rec fuel he hf
    obtain ⟨f, rfl⟩ : ∃ f, fuel = f + 1 := ⟨fuel - 1, by omega⟩
    cases hc : cycleDeps env c rec names with
    | error pr =>
      obtain ⟨evs, e⟩ := pr
      simp [pollHealthGo, hc]
    | ok q =>
      obtain ⟨rec1, evs, allH, unh⟩ := q
      by_cases hterm : (allH && !names.isEmpty) = true
      · simp [pollHealthGo, hc, hterm]
      · have htime : env.elapsedSec c > 120 := by simpa using he
        simp [pollHealthGo, hc, hterm, htime]
  | succ n ih =>
    intro c rec fuel he hf
    obtain ⟨f, rfl⟩ : ∃ f, fuel = f + 1 := ⟨fuel - 1, by omega⟩
    cases hc : cycleDeps env c rec names with
    | error pr =>
      obtain ⟨evs, e⟩ := pr
      simp [pollHealthGo, hc]
    | ok q =>
      obtain ⟨rec1, evs, allH, unh⟩ := q
      by_cases hterm : (allH && !names.isEmpty) = true
      · simp [pollHealthGo, hc, hterm]
      · by_cases htime : env.elapsedSec c > 120
        · simp [pollHealthGo, hc, hterm, htime]
        · rcases hr : pollHealthGo env names (c + 1) f rec1 with ⟨tr2, out2⟩
          have hout : (pollHealthGo env names c (f + 1) rec).2 = out2 := by
            simp [pollHealthGo, hc, hterm, htime, hr]
          rw [hout]
          have he2 : env.elapsedSec (c + 1 + n) > 120 := by
            have : c + 1 + n = c + (n + 1) := by omega
            rw [this]
            exact he
          have := ih (c + 1) rec1 f he2 (by omega)
          rw [hr] at this
          exact this

/-- Helper: every record in a cycle unhealthy set has `ready = false`. -/
theorem cycleUnhealthyPure_ready (env : HealthEnv) (names : List String) (c : Nat) :
    ∀ h ∈ cycleUnhealthyPure env names c, h.ready = false := by
  induction names with
  | nil =>
    intro h hm
    simp [cycleUnhealthyPure] at hm
  | cons d ds ih =>
    intro h hm
    have hstep : cycleUnhealthyPure env (d :: ds) c
        = (match env.pods c d with
           | .ok pods =>
             pods.filterMap fun p =>
               if (podHealthOf d p).ready then none else some (podHealthOf d p)
           | .error _ => []) ++ cycleUnhealthyPure env ds c := by
      simp [cycleUnhealthyPure]
    rw [hstep] at hm
    rcases List.mem_append.mp hm with hm | hm
    · cases hp : env.pods c d with
      | ok pods =>
        simp only [hp] at hm
        rcases List.mem_filterMap.mp hm with ⟨p, _, hf⟩
        by_cases hr : (podHealthOf d p).ready
        · rw [if_pos hr] at hf
          cases hf
        · rw [if_neg hr] at hf
          cases hf
          simpa using hr
      | error e =>
        simp only [hp] at hm
        cases hm
    · exact ih h hm

/-- C1 (amended): a `poll_health` run emits exactly one terminal event
when it ends in `AllHealthy` or `Failed` and none otherwise; an
`AllHealthy` outcome requires a monitored-workload list that is nonempty
and a cycle on which every discovered pod is ready; a `Failed` outcome
occurs past the 120-second ceiling and carries every pod unhealthy on
the final cycle, each with a captured log tail; and the loop cannot run
forever once the ceiling has passed.  The remaining terminal outcome is
a pod-list API error, which ends the loop with no terminal event — the
path the original claim omits. -/
theorem poll_health_terminal_behavior (env : HealthEnv) (names : List String) (fuel : Nat) :
    countTerminal (poll_health env names fuel).1
        = (match (poll_health env names fuel).2 with
            | .allHealthy => 1
            | .failed _ => 1
            | .apiError _ => 0
            | .fuelOut => 0)
      ∧ ((poll_health env names fuel).2 = .allHealthy →
          names ≠ [] ∧ ∃ c, allReadyCycle env names c = true)
      ∧ (∀ u, (poll_health env names fuel).2 = .failed u →
          ∃ c, env.elapsedSec c > 120 ∧ listOkCycle env names c = true
            ∧ u = (cycleUnhealthyPure env names c).map
                  fun p => { p with logs_tail := some (env.logsTail c p.name) })
      ∧ (∀ c, env.elapsedSec c > 120 → c < fuel →
          (poll_health env names fuel).2 ≠ .fuelOut) := by
  refine ⟨pollHealthGo_terminal_count env names fuel 0 [], ?_, ?_, ?_⟩
  · exact (pollHealthGo_outcomes env names fuel 0 []).1
  · exact (pollHealthGo_outcomes env names fuel 0 []).2
  · intro c hc hf
    exact pollHealthGo_term env names c 0 [] fuel (by simpa using hc) hf

/-- C1 counterexample: when the first pod list call fails, the loop
terminates by propagating the error, emitting no terminal event at
all. -/
theorem poll_health_claim_counterexample :
    (poll_health envListErr ["brain"] 5).2 = .apiError "connection refused"
      ∧ (poll_health envListErr ["brain"] 5).2 ≠ .fuelOut
      ∧ countTerminal (poll_health envListErr ["brain"] 5).1 = 0 := by
  exact ⟨rfl, by decide, rfl⟩

/-- Witness for the amended C1 theorem at two concrete environments: an
all-healthy run and an immediately-timed-out run. -/
theorem poll_health_terminal_behavior_witness :
    (["brain"] ≠ [] ∧ ∃ c, allReadyCycle envEmptyCs ["brain"] c = true)
      ∧ (poll_health envCrashFast ["brain"] 1).2 ≠ .fuelOut :=
  ⟨(poll_health_terminal_behavior envEmptyCs ["brain"] 1).2.1 (by rfl),
   (poll_health_terminal_behavior envCrashFast ["brain"] 1).2.2.2 0 (by decide) (by decide)⟩

/-- C6: in any `poll_health` run, at most 3 recovery attempts are ever
emitted for a given workload name — the budget is shared across all pod
instances and cycles — and every emitted attempt number is at most 3. -/
theorem recovery_budget_bounded (env : HealthEnv) (names : List String) (fuel : Nat)
    (d : String) :
    countRecoveryFor d (poll_health env names fuel).1 ≤ 3
      ∧ (∀ a, HealthEventM.recoveryAttempt d a ∈ (poll_health env names fuel).1 → a ≤ 3) := by
  obtain ⟨h1, h2⟩ := pollHealthGo_recovery env names d fuel 0 [] (by simp [recLookup])
  exact ⟨by simpa [recLookup] using h1, h2⟩

/-- Witness for the C6 theorem at a concrete crash-looping run. -/
theorem recovery_budget_bounded_witness :
    countRecoveryFor "brain" (poll_health envCrashFast ["brain"] 1).1 ≤ 3
      ∧ (1 : Nat) ≤ 3 :=
  ⟨(recovery_budget_bounded envCrashFast ["brain"] 1 "brain").1,
   (recovery_budget_bounded envCrashFast ["brain"] 1 "brain").2 1 (by decide)⟩

/-- C10: a pod reporting no container statuses is computed as ready (the
conjunction over an empty list), every member of a cycle unhealthy set
is non-ready (so such pods never appear there), and a run whose only pod
reports no container statuses terminates with `AllHealthy`. -/
theorem empty_container_statuses_ready :
    (∀ d pod, csOf pod = [] → (podHealthOf d pod).ready = true)
      ∧ (∀ env names c h, h ∈ cycleUnhealthyPure env names c → h.ready = false)
      ∧ (poll_health envEmptyCs ["brain"] 1).2 = .allHealthy := by
  refine ⟨?_, ?_, rfl⟩
  · intro d pod h
    simp [podHealthOf, h]
  · intro env names c h hm
    exact cycleUnhealthyPure_ready env names c h hm

/-- Witness for the C10 theorem: the empty-status pod evaluates ready;
the crash-looping pod, a member of the unhealthy set, evaluates
non-ready. -/
theorem empty_container_statuses_ready_witness :
    (podHealthOf "brain" emptyPod).ready = true
      ∧ (podHealthOf "brain" crashPod).ready = false :=
  ⟨empty_container_statuses_ready.1 "brain" emptyPod rfl,
   empty_container_statuses_ready.2.1 envCrashFast ["brain"] 0
     (podHealthOf "brain" crashPod) (by decide)⟩
